import Mathlib

/-!
Verification development for the CountMeIn poll bot (src/main.py).

The Python source is shallowly embedded below.  Datastore entities are
modelled as values in an explicit store, the memcache session store as an
association list, and outbound Telegram requests as an explicit event list.
Machine-irrelevant payload details (HTML rendering of poll texts, button
layouts) are elided where no claim depends on them; every elision is noted
at the definition it concerns.
-/

namespace CountMeIn

/-! ## Python string primitives used by the source -/

/-- Python 2 `unicode.lower()` acts character-wise by the Unicode simple
lowercase mapping (length preserving).  We model the ASCII rows of the case
table (`A`-`Z`); other characters are left unchanged.  No statement below
depends on the non-ASCII rows. -/
def pyLowerChar (c : Char) : Char :=
  if 65 ≤ c.toNat ∧ c.toNat ≤ 90 then Char.ofNat (c.toNat + 32) else c

/-- Python 2 `unicode.lower()`, character-wise over the string. -/
def pyLower (s : String) : String :=
  String.mk (s.data.map pyLowerChar)

/-- Modelled from the spec: `util.uslice(s, a, b)` (util.py is not among the
sources) — "title sliced to ≤512 chars", i.e. the slice `s[a:b]` by
characters. -/
def uslice (s : String) (a b : Nat) : String :=
  String.mk ((s.data.drop a).take (b - a))

/-- Helper for `pySplit`: walk the characters, accumulating the current
token (reversed). -/
def pySplitAux : List Char → List Char → List String
  | [], acc => if acc = [] then [] else [String.mk acc.reverse]
  | c :: cs, acc =>
      if c.isWhitespace then
        if acc = [] then pySplitAux cs []
        else String.mk acc.reverse :: pySplitAux cs []
      else
        pySplitAux cs (c :: acc)

/-- Python `str.split()` with no argument: split on runs of whitespace and
drop empty pieces. -/
def pySplit (s : String) : List String :=
  pySplitAux s.data []

/-- Python `s.startswith(pre)`: character-level prefix test. -/
def pyStartsWith (s pre : String) : Bool :=
  pre.data.isPrefixOf s.data

/-- Python `s[n:]`: drop the first `n` characters. -/
def pyDrop (s : String) (n : Nat) : String :=
  String.mk (s.data.drop n)

/-- Digits accumulator for `pyInt`. -/
def pyDigits (cs : List Char) : Option Nat :=
  if cs ≠ [] ∧ cs.all (fun c => c.isDigit) then
    some (cs.foldl (fun a c => 10 * a + (c.toNat - 48)) 0)
  else
    none

/-- Python `int(s)` on a whitespace-free string: an optional sign followed by
one or more (ASCII) digits; anything else raises `ValueError`, modelled as
`none`.  (Both call sites in the source pass tokens produced by `split`, so
surrounding whitespace never occurs.) -/
def pyInt (s : String) : Option Int :=
  match s.data with
  | '-' :: cs => (pyDigits cs).map (fun n => -(n : Int))
  | '+' :: cs => (pyDigits cs).map (fun n => (n : Int))
  | cs => (pyDigits cs).map (fun n => (n : Int))

/-- Python `unicode.isdigit()`: non-empty and all digits (ASCII rows
modelled). -/
def pyIsDigit (s : String) : Bool :=
  s ≠ "" && s.data.all (fun c => c.isDigit)

/-- Python string comparison `s < t`: lexicographic by code point
(`List.lt` on the character lists, with characters ordered by code
point). -/
def pyStrLt (s t : String) : Bool := decide (s.data < t.data)

/-- A Python value that may be passed as a voter id: the callback handler
passes the integer `from_user.id`, while `Option.toggle` works with its
`str()` form. -/
inductive PyVal where
  | int : Int → PyVal
  | str : String → PyVal
deriving DecidableEq

/-- Python `str(v)`: decimal rendering of an integer, identity on a
string. -/
def pyStr : PyVal → String
  | .int n => toString n
  | .str s => s

end CountMeIn

namespace CountMeIn

/-! ## The data model (classes `Option` and `Poll` of src/main.py)

`Option.people` is an `OrderedDict` mapping voter id (a string) to the pair
(first name, last name); we model it as an insertion-ordered association
list with unique keys. -/

/-- An insertion-ordered map from voter id to (first name, last name). -/
abbrev People := List (String × String × String)

/-- `people.get(uid)` — the value stored under `uid`, if any. -/
def peopleGet (ps : People) (uid : String) : Option (String × String) :=
  (ps.find? (fun e => e.1 == uid)).map (fun e => e.2)

/-- `people.pop(uid, None)` — removal of the entry keyed `uid` (keys are
unique, so removing every occurrence coincides with `pop`). -/
def peopleRemove (ps : People) (uid : String) : People :=
  ps.filter (fun e => e.1 != uid)

/-- Class `Option` of src/main.py (named `PollOption` here because `Option`
is taken by Lean's core library): an option title and its voter map. -/
structure PollOption where
  title : String
  people : People
deriving DecidableEq

/-- `Option.toggle(uid, first_name, last_name)` (src/main.py lines 142-150):
`uid = str(uid)`; if `self.people.get(uid)` is truthy (the stored values are
non-empty tuples, hence always truthy when present) the entry is popped and
the status reports "removed from"; otherwise the entry is appended at the
end of the insertion order and the status reports "added to". -/
def PollOption.toggle (o : PollOption) (uid : PyVal) (first_name last_name : String) :
    PollOption × String :=
  let u := pyStr uid
  match peopleGet o.people u with
  | some _ =>
      (⟨o.title, peopleRemove o.people u⟩,
       "Your name was removed from " ++ o.title ++ "!")
  | none =>
      (⟨o.title, o.people ++ [(u, first_name, last_name)]⟩,
       "Your name was added to " ++ o.title ++ "!")

/-- Entity `Poll` of src/main.py.  `id` is the datastore key id (assigned at
first put), `created` the auto-now-add creation stamp, modelled as an
ordinal. -/
structure Poll where
  id : Nat
  admin_uid : String
  title : String
  title_short : String
  active : Bool
  multi : Bool
  options : List PollOption
  created : Nat
deriving DecidableEq

/-- `Poll.new(admin_uid, title)` (src/main.py lines 64-67):
`title_short = util.uslice(title, 0, 512).lower()`; `active` and `multi`
take their property defaults `True`; `id`/`created` are assigned by the
datastore at put time and passed in here. -/
def Poll.new (id created : Nat) (admin_uid title : String) : Poll :=
  { id := id, admin_uid := admin_uid, title := title,
    title_short := pyLower (uslice title 0 512),
    active := true, multi := true, options := [], created := created }

/-! ## The datastore -/

/-- The poll kind of the datastore: a list of entities. -/
abbrev Store := List Poll

/-- `Poll.get_by_id(id)` (Python passes the id as an `int`). -/
def getById (st : Store) (id : Int) : Option Poll :=
  st.find? (fun p => (p.id : Int) == id)

/-- `poll.put()` for an entity that already has a key: replace the stored
entity with that id (insert if absent). -/
def putPoll (st : Store) (p : Poll) : Store :=
  if st.any (fun q => q.id == p.id) then
    st.map (fun q => if q.id == p.id then p else q)
  else
    st ++ [p]

/-- `poll.key.delete()`. -/
def deletePoll (st : Store) (id : Int) : Store :=
  st.filter (fun p => (p.id : Int) != id)

/-- In-place mutation of `poll.options[i]` as seen after the enclosing
`poll.put()`: the poll with option `i` replaced. -/
def setOption (p : Poll) (i : Nat) (o : PollOption) : Poll :=
  { p with options := p.options.set i o }

/-- Result of the transactional `Poll.toggle`: either a normal return
(with the possibly-updated store, the returned poll-or-None and the status
string), or a Python `IndexError` escaping the transaction (negative index
below `-len(options)`). -/
inductive ToggleResult where
  | ok (st : Store) (poll : Option Poll) (status : String)
  | indexError
deriving DecidableEq

/-- `Poll.toggle(poll_id, opt_id, uid, first_name, last_name)`
(src/main.py lines 69-79), a transactional read-modify-write of one poll:
missing poll → `(None, deleted status)`; `opt_id >= len(options)` →
`(None, invalid-option status)` (the code checks only the upper bound);
otherwise `poll.options[opt_id]` is indexed with Python list semantics — a
negative `opt_id` counts from the end, and one below `-len(options)` raises
`IndexError` — the option is toggled, the poll is put and returned with the
toggle's status. -/
def Poll.toggle (st : Store) (poll_id : Int) (opt_id : Int)
    (uid : PyVal) (first_name last_name : String) : ToggleResult :=
  match getById st poll_id with
  | none => .ok st none "Sorry, this poll has been deleted"
  | some poll =>
      if (poll.options.length : Int) ≤ opt_id then
        .ok st none "Sorry, that\x27s an invalid option"
      else
        let pyIdx : Int :=
          if opt_id < 0 then (poll.options.length : Int) + opt_id else opt_id
        if pyIdx < 0 then
          .indexError
        else
          let i := pyIdx.toNat
          let o := poll.options.getD i ⟨"", []⟩
          let r := o.toggle uid first_name last_name
          let poll2 : Poll := setOption poll i r.1
          .ok (putPoll st poll2) (some poll2) r.2

/-- One queued `ToggleVote` call: the voter's id and names. -/
abbrev ToggleCall := PyVal × String × String

/-- A serialization of concurrent `Poll.toggle` calls against one poll and
option.  `@ndb.transactional` makes each call an atomic read-modify-write
retried on conflict, so any concurrent execution is equivalent to running
the calls in some serial order; `runToggles` runs one such order.  (A call
that returns no poll leaves the store as the transaction left it.) -/
def runToggles (pid opt : Int) (st : Store) (calls : List ToggleCall) : Store :=
  calls.foldl
    (fun s c =>
      match Poll.toggle s pid opt c.1 c.2.1 c.2.2 with
      | .ok s2 _ _ => s2
      | .indexError => s)
    st

/-- How many of the queued calls carry voter id `v` (after `str()`). -/
def countCallsBy (calls : List ToggleCall) (v : String) : Nat :=
  calls.countP (fun c => pyStr c.1 == v)

end CountMeIn

namespace CountMeIn

/-! ## Inline search (src/main.py lines 401-422) -/

/-- The sentinel character `u'�'` appended to the query to form the
upper bound of the datastore range filter (src/main.py line 407). -/
def sentinelStr : String := "�"

/-- `handle_inline_query` at the level of which polls are returned and in
which order: lowercase the query text; datastore query for polls with
`admin_uid == uid` and `text <= title_short < text + u'�'`
(Python/datastore string order is code-point lexicographic); fetch at most
50; sort the fetched polls by `created` descending (`sorted` with
`reverse=True`, stable).  Each returned poll is then mapped 1-to-1 to a
result payload (id, title, options summary, rendered text, vote buttons),
which is elided here: the claims concern which polls appear and in which
order. -/
def handle_inline_query (st : Store) (uid : String) (queryText : String) :
    List Poll :=
  let text := pyLower queryText
  let fetched := (st.filter (fun p => p.admin_uid == uid
      && !(pyStrLt p.title_short text)
      && pyStrLt p.title_short (text ++ sentinelStr))).take 50
  fetched.mergeSort (fun a b => decide (b.created ≤ a.created))

/-! ## The callback dispatcher (src/main.py lines 312-391)

The `Respondent.populate_by_id` identity write is elided (a separate
entity kind no claim depends on); whether it raises `OverQuotaError` is an
input.  Outbound `edit_message_*` requests record their target context and
whether a reply markup was attached; their text/markup payloads are
elided. -/

/-- An outbound edit request queued by the dispatcher.  `inlineCtx` — the
request targets the inline message id rather than chat id + message id;
for `editMarkup`, `markup = false` means no `reply_markup` argument, which
clears the message's buttons. -/
inductive TgReq where
  | editText (inlineCtx : Bool)
  | editMarkup (inlineCtx : Bool) (markup : Bool)
deriving DecidableEq

/-- How one callback interaction ends: `answered s` — the handler reached
an `answer_callback_query` call carrying status `s`; `error` — an uncaught
Python exception aborted the request (HTTP 500) and no answer was sent. -/
inductive CbResult where
  | answered (status : String)
  | error
deriving DecidableEq

/-- The dispatcher's observable outcome: the poll store afterwards, the
queued edit requests, and how the interaction was answered. -/
structure CbOutcome where
  store : Store
  reqs : List TgReq
  result : CbResult
deriving DecidableEq

/-- Lines 333-340: `params = data.split()`, `poll_id = int(params[0])`,
`action = params[1]`; any exception (missing token, non-numeric id) is
caught and mapped to the invalid-data answer, modelled as `none`. -/
def parseData (data : String) : Option (Int × String) :=
  match pySplit data with
  | p0 :: p1 :: _ => (pyInt p0).map (fun n => (n, p1))
  | _ => none

/-- `MainPage.handle_callback_query` (src/main.py lines 312-391). -/
def handle_callback_query (st : Store) (data : String) (uid : Int)
    (first_name last_name : String) (inlineCtx : Bool) (overQuota : Bool) :
    CbOutcome :=
  if overQuota then
    ⟨st, [], .answered
        "Sorry, CountMeIn Bot is overloaded right now. Please try again later!"⟩
  else
    match parseData data with
    | none => ⟨st, [], .answered "Invalid data. This attempt will be logged!"⟩
    | some (poll_id, action) =>
      match getById st poll_id with
      | none =>
          ⟨st, [.editMarkup inlineCtx false],
           .answered "Sorry, this poll has been deleted"⟩
      | some _ =>
          if pyIsDigit action then
            -- lines 351-362: `poll, status = Poll.toggle(...)` rebinds `poll`;
            -- when the toggle returned `None` (out-of-range index), the
            -- subsequent `poll.render_text()` raises `AttributeError` on
            -- `None`, which nothing catches.
            match Poll.toggle st poll_id ((pyInt action).getD 0) (.int uid)
                first_name last_name with
            | .ok st2 (some _) status =>
                ⟨st2, [.editText inlineCtx], .answered status⟩
            | .ok st2 none _ => ⟨st2, [], .error⟩
            | .indexError => ⟨st, [], .error⟩
          else if action = "refresh" ∧ ¬ inlineCtx then
            ⟨st, [.editText false], .answered "Results updated!"⟩
          else if action = "vote" ∧ ¬ inlineCtx then
            ⟨st, [.editMarkup false true], .answered "You may now vote!"⟩
          else if action = "delete" ∧ ¬ inlineCtx then
            ⟨deletePoll st poll_id, [.editMarkup false false],
             .answered "Poll deleted!"⟩
          else if action = "back" ∧ ¬ inlineCtx then
            ⟨st, [.editMarkup false true], .answered ""⟩
          else
            ⟨st, [], .answered "Invalid data. This attempt will be logged!"⟩

/-! ## The conversation engine: handle_message (src/main.py lines 226-310)

The memcache session store is an association list keyed by the string form
of the chat id.  TTLs (the 1-hour expiry on `set`) are elided: an expired
key is simply an absent one, and every statement quantifies over the
store's current contents.  The `User.populate_by_id` identity write is
elided (a separate entity kind no claim depends on). -/

/-- The session store. -/
abbrev Sessions := List (String × String)

/-- `memcache.get(uid)`. -/
def sget (ss : Sessions) (k : String) : Option String :=
  (ss.find? (fun e => e.1 == k)).map (fun e => e.2)

/-- `memcache.set(uid, value, time=3600)` (TTL elided). -/
def sset (ss : Sessions) (k v : String) : Sessions :=
  if ss.any (fun e => e.1 == k) then
    ss.map (fun e => if e.1 == k then (k, v) else e)
  else
    ss ++ [(k, v)]

/-- `memcache.delete(uid)`. -/
def sdelete (ss : Sessions) (k : String) : Sessions :=
  ss.filter (fun e => e.1 != k)

/-- The message templates of `MainPage` (src/main.py lines 200-210),
verbatim — including the missing space in `HELP` between the concatenated
literals "send it to" and "individual friends". -/
def NEW_POLL : String := "Let\x27s create a new poll. First, send me the title."

def PREMATURE_DONE : String :=
  "Sorry, a poll needs to have at least one option to work."

def NEXT_OPTION : String :=
  "Good. Now send me another answer option, or /done to finish."

def HELP : String :=
  "This bot will help you create polls where people can leave their names. " ++
  "Use /start to create a poll here, then publish it to groups or send it to" ++
  "individual friends.\n\nSend /polls to manage your existing polls."

def DONE : String :=
  "👍 Poll created. You can now publish it to a group or send it to " ++
  "your friends in a private message. To do this, tap the button below or start " ++
  "your message in any other chat with @countmeinbot and select one of your polls to send."

/-- An outbound send from handle_message.  `message t` is
`send_message(chat_id=uid, text=t)`; `firstOptionPrompt title` is the
`FIRST_OPTION` prompt formatted with the HTML-bolded title (formatting
elided, the title recorded); `pollsList ps` is the /polls summary message
(text construction elided, the listed polls recorded); `pollDelivery p` is
`deliver_poll(uid, p)` — the rendered poll text with admin buttons
(rendering elided, the delivered poll recorded). -/
inductive Sent where
  | message (text : String)
  | firstOptionPrompt (title : String)
  | pollsList (polls : List Poll)
  | pollDelivery (poll : Poll)
deriving DecidableEq

/-- The bot's persistent state threaded through handle_message: the poll
store, the session store, and the datastore's id allocator (`put` on a new
entity assigns `nextId`; the same counter serves as the `created`
auto-now-add clock ordinal). -/
structure BotState where
  store : Store
  sessions : Sessions
  nextId : Nat
deriving DecidableEq

/-- The outcome of one inbound text message: the state afterwards, the
sends queued (in order), and whether the handler ran to completion
(`ok = false`: an uncaught exception aborted the request after the listed
sends). -/
structure MsgOutcome where
  state : BotState
  sent : List Sent
  ok : Bool
deriving DecidableEq

/-- The spec's `AppendOption(poll, text)`, as the OPT branch of
handle_message performs it (src/main.py line 298):
`poll.options.append(Option(text))` followed by `poll.put()`.
`Option.__init__`'s default `people=OrderedDict()` is a single
class-definition-time dict, but the appended option's people map is
pickled by value at `put` (`options` is a repeated `PickleProperty`,
serialized per item) while that dict is still empty, and every later
toggle acts on options freshly unpickled by `get_by_id` inside the
transaction (unpickling never calls `__init__`); so along every code path
each stored option carries its own empty map, which this value-level
embedding records directly. -/
def appendOption (poll : Poll) (text : String) : Poll :=
  { poll with options := poll.options ++ [⟨text, []⟩] }

/-- `MainPage.handle_message` (src/main.py lines 226-310). -/
def handle_message (S : BotState) (chat_id : Int) (text : String) : MsgOutcome :=
  let uid := toString chat_id
  if text = "" then
    -- `if not message.text: return`
    ⟨S, [], true⟩
  else
    let responding_to := sget S.sessions uid
    if pyStartsWith text "/start" then
      ⟨⟨S.store, sset S.sessions uid "START", S.nextId⟩,
       [.message NEW_POLL], true⟩
    else if text = "/done" then
      -- `if responding_to and responding_to.startswith('OPT ')` — a `None`
      -- or empty value is falsy, and "" does not start with "OPT " either.
      match responding_to with
      | some v =>
          if pyStartsWith v "OPT " then
            match pyInt (pyDrop v 4) with
            | none => ⟨S, [], false⟩      -- int() ValueError, uncaught
            | some pid =>
              match getById S.store pid with
              | none => ⟨S, [], false⟩    -- len(None.options): AttributeError
              | some poll =>
                if 0 < poll.options.length then
                  ⟨⟨S.store, sdelete S.sessions uid, S.nextId⟩,
                   [.message DONE, .pollDelivery poll], true⟩
                else
                  ⟨S, [.message PREMATURE_DONE], true⟩
          else
            ⟨S, [.message HELP], true⟩
      | none => ⟨S, [.message HELP], true⟩
    else if text = "/polls" then
      let recent := ((S.store.filter (fun p => p.admin_uid == uid)).mergeSort
          (fun a b => decide (b.created ≤ a.created))).take 50
      ⟨⟨S.store, sdelete S.sessions uid, S.nextId⟩, [.pollsList recent], true⟩
    else if pyStartsWith text "/view_" then
      -- the whole branch body is inside `try: ... except: help`
      match pyInt (pyDrop text 6) with
      | none => ⟨S, [.message HELP], true⟩
      | some pid =>
        match getById S.store pid with
        | none => ⟨S, [.message HELP], true⟩
        | some poll =>
          if poll.admin_uid = uid then
            ⟨⟨S.store, sdelete S.sessions uid, S.nextId⟩,
             [.pollDelivery poll], true⟩
          else
            ⟨S, [.message HELP], true⟩
    else
      match responding_to with
      | none => ⟨S, [.message HELP], true⟩
      | some v =>
        if v = "" then
          -- `if not responding_to`: the empty string is falsy
          ⟨S, [.message HELP], true⟩
        else if v = "START" then
          let p := Poll.new S.nextId S.nextId uid text
          ⟨⟨S.store ++ [p], sset S.sessions uid ("OPT " ++ toString S.nextId),
            S.nextId + 1⟩,
           [.firstOptionPrompt text], true⟩
        else if pyStartsWith v "OPT " then
          match pyInt (pyDrop v 4) with
          | none => ⟨S, [], false⟩        -- int() ValueError, uncaught
          | some pid =>
            match getById S.store pid with
            | none => ⟨S, [], false⟩      -- None.options: AttributeError
            | some poll =>
              let poll2 : Poll := appendOption poll text
              let st2 := putPoll S.store poll2
              if poll2.options.length < 10 then
                ⟨⟨st2, S.sessions, S.nextId⟩, [.message NEXT_OPTION], true⟩
              else
                ⟨⟨st2, sdelete S.sessions uid, S.nextId⟩,
                 [.message DONE, .pollDelivery poll2], true⟩
        else
          ⟨⟨S.store, sdelete S.sessions uid, S.nextId⟩,
           [.message HELP], true⟩

/-! ## Sanity checks on small inputs (spec §8 scenario) -/

example :
    (Poll.new 1 0 "u1" "Lunch?").title_short = "lunch?" := by decide

example :
    Poll.toggle [{ Poll.new 1 0 "u1" "Lunch?" with
                   options := [⟨"Pizza", []⟩, ⟨"Salad", []⟩] }]
      1 0 (.str "u2") "Sam" "" =
    .ok [{ Poll.new 1 0 "u1" "Lunch?" with
           options := [⟨"Pizza", [("u2", "Sam", "")]⟩, ⟨"Salad", []⟩] }]
      (some { Poll.new 1 0 "u1" "Lunch?" with
              options := [⟨"Pizza", [("u2", "Sam", "")]⟩, ⟨"Salad", []⟩] })
      "Your name was added to Pizza!" := by decide

/-! ## Helper lemmas -/

theorem peopleGet_nil (v : String) : peopleGet [] v = none := rfl

theorem peopleGet_cons (e : String × String × String) (ps : People) (v : String) :
    peopleGet (e :: ps) v = if e.1 = v then some e.2 else peopleGet ps v := by
  by_cases h : e.1 = v
  · have hb : (e.1 == v) = true := by simp [h]
    simp [peopleGet, List.find?_cons, hb, h]
  · have hb : (e.1 == v) = false := by simp [h]
    simp [peopleGet, List.find?_cons, hb, h]

theorem peopleRemove_cons (e : String × String × String) (ps : People)
    (u : String) :
    peopleRemove (e :: ps) u =
      if e.1 = u then peopleRemove ps u else e :: peopleRemove ps u := by
  by_cases h : e.1 = u
  · have hb : (e.1 != u) = false := by simp [h]
    simp [peopleRemove, List.filter_cons, hb, h]
  · have hb : (e.1 != u) = true := by simp [h]
    simp [peopleRemove, List.filter_cons, hb, h]

theorem peopleGet_remove (ps : People) (u v : String) :
    peopleGet (peopleRemove ps u) v = if v = u then none else peopleGet ps v := by
  induction ps with
  | nil => simp [peopleRemove, peopleGet_nil]
  | cons e ps ih =>
    rw [peopleRemove_cons, peopleGet_cons]
    by_cases he : e.1 = u
    · rw [if_pos he, ih]
      by_cases hv : v = u
      · rw [if_pos hv, if_pos hv]
      · rw [if_neg hv, if_neg hv,
          if_neg (show ¬ e.1 = v from fun hev => hv (hev.symm.trans he))]
    · rw [if_neg he, peopleGet_cons, ih]
      by_cases hv : v = u
      · rw [if_pos hv, if_pos hv,
          if_neg (show ¬ e.1 = v from fun hev => he (hev.trans hv))]
      · rw [if_neg hv, if_neg hv]

theorem peopleGet_append (ps qs : People) (v : String) :
    peopleGet (ps ++ qs) v = (peopleGet ps v).or (peopleGet qs v) := by
  cases h : List.find? (fun e => e.1 == v) ps <;>
    simp [peopleGet, List.find?_append, h]

theorem sget_cons (e : String × String) (ss : Sessions) (k : String) :
    sget (e :: ss) k = if e.1 = k then some e.2 else sget ss k := by
  by_cases h : e.1 = k
  · have hb : (e.1 == k) = true := by simp [h]
    simp [sget, List.find?_cons, hb, h]
  · have hb : (e.1 == k) = false := by simp [h]
    simp [sget, List.find?_cons, hb, h]

theorem sdelete_cons (e : String × String) (ss : Sessions) (k : String) :
    sdelete (e :: ss) k =
      if e.1 = k then sdelete ss k else e :: sdelete ss k := by
  by_cases h : e.1 = k
  · have hb : (e.1 != k) = false := by simp [h]
    simp [sdelete, List.filter_cons, hb, h]
  · have hb : (e.1 != k) = true := by simp [h]
    simp [sdelete, List.filter_cons, hb, h]

theorem sget_sdelete_self (ss : Sessions) (k : String) :
    sget (sdelete ss k) k = none := by
  induction ss with
  | nil => rfl
  | cons e ss ih =>
    rw [sdelete_cons]
    by_cases he : e.1 = k
    · rw [if_pos he]; exact ih
    · rw [if_neg he, sget_cons, if_neg he]; exact ih

theorem getById_id {st : Store} {pid : Int} {p : Poll}
    (h : getById st pid = some p) : (p.id : Int) = pid := by
  have := List.find?_some h
  simpa using this

theorem getById_mem {st : Store} {pid : Int} {p : Poll}
    (h : getById st pid = some p) : p ∈ st :=
  List.mem_of_find?_eq_some h

theorem getById_putPoll {st : Store} {pid : Int} {p0 : Poll}
    (h : getById st pid = some p0) (q : Poll) (hq : q.id = p0.id) :
    getById (putPoll st q) pid = some q := by
  have hid : (p0.id : Int) = pid := getById_id h
  have hqid : (q.id : Int) = pid := by rw [hq]; exact hid
  unfold putPoll
  have hany : st.any (fun r => r.id == q.id) = true :=
    List.any_eq_true.mpr ⟨p0, getById_mem h, by simp [hq]⟩
  rw [if_pos hany]
  clear hany
  induction st with
  | nil => simp [getById] at h
  | cons r st ih =>
    by_cases hr : (r.id : Int) = pid
    · have hrq : (r.id == q.id) = true := by
        have : (r.id : Int) = (q.id : Int) := hr.trans hqid.symm
        simp at this; simp [this]
      simp only [List.map_cons, getById, List.find?_cons, hrq, if_true]
      simp [hqid]
    · have hrped : ((r.id : Int) == pid) = false := by simpa using hr
      have hrq : (r.id == q.id) = false := by
        by_contra hcon
        have : (r.id == q.id) = true := by
          cases hb : (r.id == q.id) <;> simp [hb] at hcon ⊢
        have : r.id = q.id := by simpa using this
        exact hr (by rw [this]; exact hqid)
      have h' : getById st pid = some p0 := by
        simpa [getById, List.find?_cons, hrped] using h
      simp only [List.map_cons, hrq, if_false, Bool.false_eq_true, getById,
        List.find?_cons, hrped]
      exact ih h'

theorem toggle_people_mem (o : PollOption) (uid : PyVal) (f l : String)
    (v : String) :
    (peopleGet (o.toggle uid f l).1.people v).isSome =
      ((peopleGet o.people v).isSome != (pyStr uid == v)) := by
  by_cases hv : pyStr uid = v
  · subst hv
    cases h : peopleGet o.people (pyStr uid) with
    | none => simp [PollOption.toggle, h, peopleGet_append, peopleGet_cons]
    | some w => simp [PollOption.toggle, h, peopleGet_remove]
  · have hb : (pyStr uid == v) = false := by simp [hv]
    cases h : peopleGet o.people (pyStr uid) with
    | none =>
        simp [PollOption.toggle, h, peopleGet_append, peopleGet_cons, hv,
          peopleGet_nil, hb]
    | some w =>
        simp [PollOption.toggle, h, peopleGet_remove, hv, Ne.symm hv, hb]

/-! ## Claim theorems -/


/-- C2.  The claim fails on the code: a chat-context callback on an
existing one-option poll with the numeric action `5` (option index out of
bounds) makes `Poll.toggle` return `(None, invalid-option status)`, after
which `poll.render_text()` raises `AttributeError` on `None`; the request
aborts with no `answer_callback_query` at all, instead of the claimed one
answer carrying the ToggleVote status. -/
theorem callback_out_of_range_sends_no_answer :
    (let st : Store :=
       [{ id := 1, admin_uid := "u1", title := "Lunch?",
          title_short := "lunch?", active := true, multi := true,
          options := [⟨"Pizza", []⟩], created := 0 }]
     handle_callback_query st "1 5" 7 "Sam" "" false false =
       ⟨st, [], .error⟩) := by
  decide

/-- C3, counterexample.  The claim demands the invalid-option failure for
every index outside `[0, option count)`, but the code checks only the
upper bound: on a one-option poll, index `-1` slips past
`opt_id >= len(poll.options)` and Python's negative indexing toggles the
last option — the call returns the updated poll and an "added to" status
rather than `(None, invalid-option status)`. -/
theorem toggle_negative_index_not_rejected :
    (let p : Poll :=
       { id := 1, admin_uid := "u1", title := "Lunch?",
         title_short := "lunch?", active := true, multi := true,
         options := [⟨"Pizza", []⟩], created := 0 }
     let p2 : Poll := { p with options := [⟨"Pizza", [("u2", "Sam", "")]⟩] }
     Poll.toggle [p] 1 (-1) (.str "u2") "Sam" "" =
       .ok [p2] (some p2) "Your name was added to Pizza!") := by
  decide

/-- C5, counterexample.  `title_short` is the lowercasing of the truncated
title, not a prefix of the title itself: for the title "PIZZA" the key is
"pizza", which is not a prefix of "PIZZA". -/
theorem title_short_not_a_prefix :
    ¬ (Poll.new 1 0 "u1" "PIZZA").title_short.data.isPrefixOf
        (Poll.new 1 0 "u1" "PIZZA").title.data := by
  decide

/-- C10.  `Option.toggle` converts the voter id with `str()` before any
use, so membership is keyed by the decimal string of the id: toggling with
the integer `n` and with the string `str(n)` are literally the same
operation; when the key is absent the entry is inserted under the decimal
string, and when it is present (no matter which form inserted it) toggling
with the integer removes it. -/
theorem toggle_int_str_same :
    (∀ (o : PollOption) (n : Int) (f l : String),
        o.toggle (.int n) f l = o.toggle (.str (toString n)) f l) ∧
    (∀ (o : PollOption) (n : Int) (f l : String),
        peopleGet o.people (toString n) = none →
          (o.toggle (.int n) f l).1.people =
            o.people ++ [(toString n, f, l)]) ∧
    (∀ (o : PollOption) (n : Int) (f l : String),
        (peopleGet o.people (toString n)).isSome = true →
          peopleGet (o.toggle (.int n) f l).1.people (toString n) = none) := by
  refine ⟨fun o n f l => rfl, fun o n f l h => ?_, fun o n f l h => ?_⟩
  · simp [PollOption.toggle, pyStr, h]
  · obtain ⟨w, hw⟩ := Option.isSome_iff_exists.mp h
    simp [PollOption.toggle, pyStr, hw, peopleGet_remove]

/-- Witness for the hypotheses of `toggle_int_str_same`, at voter id 42 on
a concrete option. -/
theorem toggle_int_str_same_witness :
    ((⟨"Pizza", []⟩ : PollOption).toggle (.int 42) "Sam" "" =
        (⟨"Pizza", []⟩ : PollOption).toggle (.str (toString (42 : Int))) "Sam" "") ∧
    ((⟨"Pizza", []⟩ : PollOption).toggle (.int 42) "Sam" "").1.people =
        [] ++ [(toString (42 : Int), "Sam", "")] ∧
    peopleGet
        ((⟨"Pizza", [(toString (42 : Int), "Sam", "")]⟩ : PollOption).toggle
          (.int 42) "Sam" "").1.people (toString (42 : Int)) = none :=
  ⟨toggle_int_str_same.1 ⟨"Pizza", []⟩ 42 "Sam" "",
   toggle_int_str_same.2.1 ⟨"Pizza", []⟩ 42 "Sam" "" (by decide),
   toggle_int_str_same.2.2 ⟨"Pizza", [(toString (42 : Int), "Sam", "")]⟩ 42
     "Sam" "" (by decide)⟩

/-- C4, counterexample.  The claim promises every poll whose
title-prefix-key starts with the lowercased query — "including titles whose
prefix-key contains arbitrary Unicode characters after the query prefix".
But the code's upper range bound is `query + u'�'`, so a title-short
whose character after the prefix is U+FFFF (which sorts above U+FFFD) is
excluded: the requester's own poll titled "a￿" is not returned for
query "a" even though its prefix-key starts with "a". -/
theorem inline_search_misses_high_codepoint :
    (let P := Poll.new 1 0 "7" "a￿"
     handle_inline_query [P] "7" "a" = [] ∧
       pyStartsWith P.title_short (pyLower "a") = true ∧
       P.admin_uid = "7") := by
  refine ⟨?_, by decide, by decide⟩
  have h : ([Poll.new 1 0 "7" "a￿"].filter
      (fun p => p.admin_uid == "7"
        && !(pyStrLt p.title_short (pyLower "a"))
        && pyStrLt p.title_short (pyLower "a" ++ sentinelStr))) = [] := by
    decide
  simp only [handle_inline_query, h, List.take_nil, List.mergeSort_nil]

/-- C7.  `/done` in state OPT(p) with zero options only emits the
needs-at-least-one-option notice: the store, the session store and the id
allocator are all unchanged (so the session is still OPT(p) and the poll
stays editable), the poll is neither delivered nor finalized, and the
handler completes normally. -/
theorem done_zero_options_frame (S : BotState) (cid : Int) (v : String)
    (pid : Int) (poll : Poll)
    (hs : sget S.sessions (toString cid) = some v)
    (hv : pyStartsWith v "OPT " = true)
    (hp : pyInt (pyDrop v 4) = some pid)
    (hg : getById S.store pid = some poll)
    (h0 : poll.options = []) :
    handle_message S cid "/done" = ⟨S, [.message PREMATURE_DONE], true⟩ := by
  have d1 : ¬ (("/done" : String) = "") := by decide
  have d2 : pyStartsWith "/done" "/start" = false := by decide
  simp only [handle_message, d1, if_false, d2, Bool.false_eq_true, if_true,
    hs, hv, hp, hg, h0, List.length_nil, Nat.lt_irrefl, ite_true, ite_false,
    reduceIte]

/-- Witness for `done_zero_options_frame`: a concrete conversation `5` in
state `OPT 1` over a zero-option poll. -/
theorem done_zero_options_frame_witness :
    handle_message ⟨[Poll.new 1 0 "5" "Lunch?"], [("5", "OPT 1")], 2⟩ 5 "/done" =
      ⟨⟨[Poll.new 1 0 "5" "Lunch?"], [("5", "OPT 1")], 2⟩,
       [.message PREMATURE_DONE], true⟩ :=
  done_zero_options_frame ⟨[Poll.new 1 0 "5" "Lunch?"], [("5", "OPT 1")], 2⟩
    5 "OPT 1" 1 (Poll.new 1 0 "5" "Lunch?")
    (by decide) (by decide) (by decide) (by decide) (by decide)

/-- C6.  In state OPT(p) (with the poll present and, as in every reachable
OPT session, fewer than 10 options), non-command text appends exactly one
option; the handler prompts for the next option and keeps the session
exactly when the resulting count is below 10, and exactly when the count
reaches 10 it sends the DONE acknowledgment, delivers the poll and clears
the session (so the OPT branch cannot fire again) — the poll is delivered
if and only if the count transitions to 10. -/
theorem opt_append_finalize_at_ten (S : BotState) (cid : Int) (text v : String)
    (pid : Int) (poll : Poll)
    (ht0 : text ≠ "")
    (ht1 : pyStartsWith text "/start" = false)
    (ht2 : text ≠ "/done")
    (ht3 : text ≠ "/polls")
    (ht4 : pyStartsWith text "/view_" = false)
    (hs : sget S.sessions (toString cid) = some v)
    (hv : pyStartsWith v "OPT " = true)
    (hp : pyInt (pyDrop v 4) = some pid)
    (hg : getById S.store pid = some poll)
    (hlt : poll.options.length < 10) :
    (appendOption poll text).options.length = poll.options.length + 1 ∧
    (handle_message S cid text).state.store =
      putPoll S.store (appendOption poll text) ∧
    (handle_message S cid text).ok = true ∧
    (poll.options.length + 1 < 10 →
       handle_message S cid text =
         ⟨⟨putPoll S.store (appendOption poll text), S.sessions, S.nextId⟩,
          [.message NEXT_OPTION], true⟩) ∧
    (poll.options.length + 1 = 10 →
       handle_message S cid text =
         ⟨⟨putPoll S.store (appendOption poll text),
           sdelete S.sessions (toString cid), S.nextId⟩,
          [.message DONE, .pollDelivery (appendOption poll text)], true⟩ ∧
       sget (handle_message S cid text).state.sessions (toString cid) = none) ∧
    ((∃ q, Sent.pollDelivery q ∈ (handle_message S cid text).sent) ↔
       poll.options.length + 1 = 10) := by
  have hv1 : v ≠ "" := by
    intro h; rw [h] at hv; exact absurd hv (by decide)
  have hv2 : v ≠ "START" := by
    intro h; rw [h] at hv; exact absurd hv (by decide)
  have hout : handle_message S cid text =
      if (appendOption poll text).options.length < 10 then
        ⟨⟨putPoll S.store (appendOption poll text), S.sessions, S.nextId⟩,
         [.message NEXT_OPTION], true⟩
      else
        ⟨⟨putPoll S.store (appendOption poll text),
          sdelete S.sessions (toString cid), S.nextId⟩,
         [.message DONE, .pollDelivery (appendOption poll text)], true⟩ := by
    simp only [handle_message, ht0, ht1, ht2, ht3, ht4, hs, hv, hv1, hv2, hp,
      hg, Bool.false_eq_true, if_false, if_true, ite_true, ite_false,
      reduceIte]
  have hlen : (appendOption poll text).options.length =
      poll.options.length + 1 := by
    simp [appendOption]
  rw [hlen] at hout
  by_cases hc : poll.options.length + 1 < 10
  · rw [if_pos hc] at hout
    refine ⟨hlen, by rw [hout], by rw [hout], fun _ => hout,
      fun h10 => absurd h10 (by omega), ?_⟩
    rw [hout]
    constructor
    · rintro ⟨q, hq⟩
      simp at hq
    · intro h10; exact absurd h10 (by omega)
  · have h10 : poll.options.length + 1 = 10 := by omega
    rw [if_neg hc] at hout
    refine ⟨hlen, by rw [hout], by rw [hout], fun hl => absurd hl hc,
      fun _ => ⟨hout, by rw [hout]; exact sget_sdelete_self _ _⟩, ?_⟩
    rw [hout]
    constructor
    · intro _; exact h10
    · intro _; exact ⟨appendOption poll text, by simp⟩

/-- Witness for `opt_append_finalize_at_ten`: conversation `5` in state
`OPT 1` over a nine-option poll; the appended tenth option finalizes. -/
theorem opt_append_finalize_at_ten_witness :
    (let poll : Poll :=
       { Poll.new 1 0 "5" "Lunch?" with
         options := [⟨"a", []⟩, ⟨"b", []⟩, ⟨"c", []⟩, ⟨"d", []⟩, ⟨"e", []⟩,
                     ⟨"f", []⟩, ⟨"g", []⟩, ⟨"h", []⟩, ⟨"i", []⟩] }
     let S : BotState := ⟨[poll], [("5", "OPT 1")], 2⟩
     (appendOption poll "j").options.length = poll.options.length + 1 ∧
     (handle_message S 5 "j").state.store =
       putPoll S.store (appendOption poll "j") ∧
     (handle_message S 5 "j").ok = true ∧
     (poll.options.length + 1 < 10 →
        handle_message S 5 "j" =
          ⟨⟨putPoll S.store (appendOption poll "j"), S.sessions, S.nextId⟩,
           [.message NEXT_OPTION], true⟩) ∧
     (poll.options.length + 1 = 10 →
        handle_message S 5 "j" =
          ⟨⟨putPoll S.store (appendOption poll "j"),
            sdelete S.sessions (toString (5 : Int)), S.nextId⟩,
           [.message DONE, .pollDelivery (appendOption poll "j")], true⟩ ∧
        sget (handle_message S 5 "j").state.sessions (toString (5 : Int)) =
          none) ∧
     ((∃ q, Sent.pollDelivery q ∈ (handle_message S 5 "j").sent) ↔
        poll.options.length + 1 = 10)) :=
  opt_append_finalize_at_ten _ 5 "j" "OPT 1" 1 _
    (by decide) (by decide) (by decide) (by decide) (by decide) (by decide)
    (by decide) (by decide) (by decide) (by decide)

/-- C9.  A chat-context `delete` callback on an existing poll deletes the
poll, clears the message's buttons and answers "Poll deleted!" for every
requester identity — the right-hand side never mentions the requester or
the poll's admin id, and any two requesters obtain identical outcomes: no
ownership check guards deletion. -/
theorem delete_needs_no_ownership (st : Store) (data : String) (pid : Int)
    (p : Poll)
    (hd : parseData data = some (pid, "delete"))
    (hg : getById st pid = some p) :
    (∀ (uid : Int) (f l : String),
        handle_callback_query st data uid f l false false =
          ⟨deletePoll st pid, [.editMarkup false false],
           .answered "Poll deleted!"⟩) ∧
    (∀ (uid1 uid2 : Int) (f1 l1 f2 l2 : String),
        handle_callback_query st data uid1 f1 l1 false false =
          handle_callback_query st data uid2 f2 l2 false false) := by
  have hdig : pyIsDigit "delete" = false := by decide
  have hmain : ∀ (uid : Int) (f l : String),
      handle_callback_query st data uid f l false false =
        ⟨deletePoll st pid, [.editMarkup false false],
         .answered "Poll deleted!"⟩ := by
    intro uid f l
    have d1 : ¬ (("delete" : String) = "refresh" ∧ ¬ (false : Bool) = true) := by
      decide
    have d2 : ¬ (("delete" : String) = "vote" ∧ ¬ (false : Bool) = true) := by
      decide
    have d3 : (("delete" : String) = "delete" ∧ ¬ (false : Bool) = true) := by
      decide
    simp [handle_callback_query, hd, hg, hdig, d1, d2, d3]
  exact ⟨hmain, fun uid1 uid2 f1 l1 f2 l2 =>
    (hmain uid1 f1 l1).trans (hmain uid2 f2 l2).symm⟩

/-- `List.getD` of `List.set` at the written (in-bounds) index. -/
theorem getD_set_self {l : List PollOption} {i : Nat} (a d : PollOption)
    (h : i < l.length) : (l.set i a).getD i d = a := by
  simp [List.getD_eq_getElem?_getD, List.getElem?_set_self h]

/-- The in-bounds normal form of `Poll.toggle`: with the poll present and
`0 ≤ opt < len(options)`, the toggle rewrites option `opt` by
`Option.toggle` and puts the poll back. -/
theorem toggle_in_bounds {st : Store} {pid : Int} {opt : Int} (uid : PyVal)
    (f l : String) {p : Poll}
    (hg : getById st pid = some p) (h0 : 0 ≤ opt)
    (hlen : opt < (p.options.length : Int)) :
    Poll.toggle st pid opt uid f l =
      .ok (putPoll st (setOption p opt.toNat
            ((p.options.getD opt.toNat ⟨"", []⟩).toggle uid f l).1))
        (some (setOption p opt.toNat
            ((p.options.getD opt.toNat ⟨"", []⟩).toggle uid f l).1))
        ((p.options.getD opt.toNat ⟨"", []⟩).toggle uid f l).2 := by
  have e1 : ¬ ((p.options.length : Int) ≤ opt) := by omega
  have e2 : ¬ (opt < 0) := by omega
  simp only [Poll.toggle, hg, e1, if_false, e2, ite_false, reduceIte]

/-- `List.getD` of `List.set` at any other index. -/
theorem getD_set_ne {l : List PollOption} {i j : Nat} (a d : PollOption)
    (h : i ≠ j) : (l.set i a).getD j d = l.getD j d := by
  simp [List.getD_eq_getElem?_getD, List.getElem?_set_ne h]

/-- `put` of one poll leaves every differently-keyed stored poll in
place. -/
theorem mem_putPoll_of_ne {st : Store} {q p : Poll}
    (hq : q ∈ st) (hne : q.id ≠ p.id) : q ∈ putPoll st p := by
  unfold putPoll
  by_cases h : st.any (fun r => r.id == p.id)
  · rw [if_pos h]
    refine List.mem_map.mpr ⟨q, hq, ?_⟩
    simp [hne]
  · rw [if_neg h]
    exact List.mem_append_left _ hq

/-- C1.  Every Option created by `AppendOption` starts with an empty
people map, and distinct options' people maps are independent.  The
constructor's shared default `OrderedDict` (src/main.py line 138) is
never observable: the appended option's dict is pickled by value while
still empty and every toggle acts on freshly unpickled options (see
`appendOption`), which this value-level store embedding records.  The
theorem states (a) the append step adds an option whose people map is
empty, (b) one `Poll.toggle` on option `opt` leaves the people map of
every other option of that poll unchanged, (c) it leaves every other
stored poll entirely unchanged, and (d) the frame extends to every
sequence of toggle calls against that option. -/
theorem append_empty_and_toggle_independent :
    (∀ (poll : Poll) (text : String),
        (appendOption poll text).options = poll.options ++ [⟨text, []⟩]) ∧
    (∀ (st : Store) (pid opt : Int) (uid : PyVal) (f l : String)
        (st2 : Store) (p2 : Poll) (s2 : String) (p0 : Poll),
        Poll.toggle st pid opt uid f l = .ok st2 (some p2) s2 →
        getById st pid = some p0 → 0 ≤ opt →
        ∀ j, j ≠ opt.toNat →
          p2.options.getD j ⟨"", []⟩ = p0.options.getD j ⟨"", []⟩) ∧
    (∀ (st : Store) (pid opt : Int) (uid : PyVal) (f l : String)
        (st2 : Store) (p2 : Poll) (s2 : String) (q : Poll),
        Poll.toggle st pid opt uid f l = .ok st2 (some p2) s2 →
        q ∈ st → (q.id : Int) ≠ pid → q ∈ st2) ∧
    (∀ (st : Store) (pid opt : Int) (p0 : Poll),
        getById st pid = some p0 → 0 ≤ opt →
        opt < (p0.options.length : Int) →
        ∀ (calls : List ToggleCall) (j : Nat), j ≠ opt.toNat →
          ∃ p2, getById (runToggles pid opt st calls) pid = some p2 ∧
            p2.options.getD j ⟨"", []⟩ = p0.options.getD j ⟨"", []⟩) := by
  refine ⟨fun poll text => rfl, ?_, ?_, ?_⟩
  · intro st pid opt uid f l st2 p2 s2 p0 htog hg0 h0 j hj
    simp only [Poll.toggle, hg0] at htog
    by_cases e1 : (p0.options.length : Int) ≤ opt
    · rw [if_pos e1] at htog
      simp only [ToggleResult.ok.injEq] at htog
      exact absurd htog.2.1 (by simp)
    · rw [if_neg e1] at htog
      rw [if_neg (by omega : ¬ opt < 0)] at htog
      rw [if_neg (by omega : ¬ opt < 0)] at htog
      simp only [ToggleResult.ok.injEq] at htog
      obtain ⟨-, hq, -⟩ := htog
      obtain rfl := Option.some.inj hq
      simp only [setOption]
      exact getD_set_ne _ _ (Ne.symm hj)
  · intro st pid opt uid f l st2 p2 s2 q htog hqmem hne
    cases hg0 : getById st pid with
    | none =>
      simp only [Poll.toggle, hg0] at htog
      simp only [ToggleResult.ok.injEq] at htog
      exact absurd htog.2.1 (by simp)
    | some p0 =>
      simp only [Poll.toggle, hg0] at htog
      by_cases e1 : (p0.options.length : Int) ≤ opt
      · rw [if_pos e1] at htog
        simp only [ToggleResult.ok.injEq] at htog
        exact absurd htog.2.1 (by simp)
      · rw [if_neg e1] at htog
        by_cases e2 : (if opt < 0 then (p0.options.length : Int) + opt
            else opt) < 0
        · rw [if_pos e2] at htog
          exact ToggleResult.noConfusion htog
        · rw [if_neg e2] at htog
          simp only [ToggleResult.ok.injEq] at htog
          obtain ⟨hst, hp2, -⟩ := htog
          rw [← hst]
          have hpid : (p0.id : Int) = pid := getById_id hg0
          refine mem_putPoll_of_ne hqmem ?_
          intro he
          exact hne (by
            rw [show (setOption p0 (if opt < 0 then
                  (p0.options.length : Int) + opt else opt).toNat
                ((p0.options.getD (if opt < 0 then
                  (p0.options.length : Int) + opt else opt).toNat
                  ⟨"", []⟩).toggle uid f l).1).id = p0.id from rfl] at he
            rw [he]
            exact hpid)
  · intro st pid opt p0 hg0 h0 hlen calls j hj
    have main : ∀ (calls : List ToggleCall) (st : Store) (p0 : Poll),
        getById st pid = some p0 → opt < (p0.options.length : Int) →
        ∃ p2, getById (runToggles pid opt st calls) pid = some p2 ∧
          p2.options.getD j ⟨"", []⟩ = p0.options.getD j ⟨"", []⟩ := by
      intro calls
      induction calls with
      | nil =>
        intro st p0 hg hlen
        exact ⟨p0, hg, rfl⟩
      | cons c calls ih =>
        intro st p0 hg hlen
        have key := toggle_in_bounds c.1 c.2.1 c.2.2 hg h0 hlen
        have hst' : runToggles pid opt st (c :: calls) =
            runToggles pid opt (putPoll st (setOption p0 opt.toNat
              ((p0.options.getD opt.toNat ⟨"", []⟩).toggle c.1 c.2.1
                c.2.2).1)) calls := by
          simp only [runToggles, List.foldl_cons, key]
        have hgq := getById_putPoll hg (setOption p0 opt.toNat
          ((p0.options.getD opt.toNat ⟨"", []⟩).toggle c.1 c.2.1 c.2.2).1) rfl
        have hlenq : opt < (((setOption p0 opt.toNat
            ((p0.options.getD opt.toNat ⟨"", []⟩).toggle c.1 c.2.1
              c.2.2).1)).options.length : Int) := by
          simp only [setOption, List.length_set]
          exact hlen
        obtain ⟨p2, hgp2, hpres⟩ := ih _ _ hgq hlenq
        refine ⟨p2, by rw [hst']; exact hgp2, ?_⟩
        refine hpres.trans ?_
        simp only [setOption]
        exact getD_set_ne _ _ (Ne.symm hj)
    exact main calls st p0 hg0 hlen

/-- Witness for `append_empty_and_toggle_independent`: appending "Pizza"
to a fresh poll yields an empty map; toggling option 0 of a two-option
poll leaves option 1 (and the other stored poll) untouched, also across a
two-call sequence. -/
theorem append_empty_and_toggle_independent_witness :
    (let pa : Poll := ⟨1, "u1", "Lunch?", "lunch?", true, true,
       [⟨"Pizza", []⟩, ⟨"Salad", []⟩], 0⟩
     let pb : Poll := ⟨2, "u2", "Dinner?", "dinner?", true, true,
       [⟨"Steak", []⟩], 0⟩
     ((appendOption (Poll.new 1 0 "u1" "Lunch?") "Pizza").options =
        (Poll.new 1 0 "u1" "Lunch?").options ++ [⟨"Pizza", []⟩]) ∧
     ((setOption pa (Int.toNat 0)
          ⟨"Pizza", [] ++ [(pyStr (.str "u3"), "Sam", "")]⟩).options.getD 1
          ⟨"", []⟩ =
        pa.options.getD 1 ⟨"", []⟩) ∧
     pb ∈ putPoll [pa, pb] (setOption pa (Int.toNat 0)
        ⟨"Pizza", [] ++ [(pyStr (.str "u3"), "Sam", "")]⟩) ∧
     (∃ p2, getById (runToggles 1 0 [pa, pb]
          [(.str "u3", "Sam", ""), (.str "u4", "Ada", "")]) 1 = some p2 ∧
        p2.options.getD 1 ⟨"", []⟩ = pa.options.getD 1 ⟨"", []⟩)) :=
  ⟨append_empty_and_toggle_independent.1 (Poll.new 1 0 "u1" "Lunch?") "Pizza",
   append_empty_and_toggle_independent.2.1
     [⟨1, "u1", "Lunch?", "lunch?", true, true,
       [⟨"Pizza", []⟩, ⟨"Salad", []⟩], 0⟩,
      ⟨2, "u2", "Dinner?", "dinner?", true, true, [⟨"Steak", []⟩], 0⟩]
     1 0 (.str "u3") "Sam" ""
     (putPoll [⟨1, "u1", "Lunch?", "lunch?", true, true,
         [⟨"Pizza", []⟩, ⟨"Salad", []⟩], 0⟩,
        ⟨2, "u2", "Dinner?", "dinner?", true, true, [⟨"Steak", []⟩], 0⟩]
       (setOption ⟨1, "u1", "Lunch?", "lunch?", true, true,
           [⟨"Pizza", []⟩, ⟨"Salad", []⟩], 0⟩ (Int.toNat 0)
         ⟨"Pizza", [] ++ [(pyStr (.str "u3"), "Sam", "")]⟩))
     (setOption ⟨1, "u1", "Lunch?", "lunch?", true, true,
         [⟨"Pizza", []⟩, ⟨"Salad", []⟩], 0⟩ (Int.toNat 0)
       ⟨"Pizza", [] ++ [(pyStr (.str "u3"), "Sam", "")]⟩)
     ("Your name was added to " ++ "Pizza" ++ "!")
     ⟨1, "u1", "Lunch?", "lunch?", true, true,
       [⟨"Pizza", []⟩, ⟨"Salad", []⟩], 0⟩
     (by decide) (by decide) (by decide) 1 (by decide),
   append_empty_and_toggle_independent.2.2.1
     [⟨1, "u1", "Lunch?", "lunch?", true, true,
       [⟨"Pizza", []⟩, ⟨"Salad", []⟩], 0⟩,
      ⟨2, "u2", "Dinner?", "dinner?", true, true, [⟨"Steak", []⟩], 0⟩]
     1 0 (.str "u3") "Sam" ""
     (putPoll [⟨1, "u1", "Lunch?", "lunch?", true, true,
         [⟨"Pizza", []⟩, ⟨"Salad", []⟩], 0⟩,
        ⟨2, "u2", "Dinner?", "dinner?", true, true, [⟨"Steak", []⟩], 0⟩]
       (setOption ⟨1, "u1", "Lunch?", "lunch?", true, true,
           [⟨"Pizza", []⟩, ⟨"Salad", []⟩], 0⟩ (Int.toNat 0)
         ⟨"Pizza", [] ++ [(pyStr (.str "u3"), "Sam", "")]⟩))
     (setOption ⟨1, "u1", "Lunch?", "lunch?", true, true,
         [⟨"Pizza", []⟩, ⟨"Salad", []⟩], 0⟩ (Int.toNat 0)
       ⟨"Pizza", [] ++ [(pyStr (.str "u3"), "Sam", "")]⟩)
     ("Your name was added to " ++ "Pizza" ++ "!")
     ⟨2, "u2", "Dinner?", "dinner?", true, true, [⟨"Steak", []⟩], 0⟩
     (by decide) (by decide) (by decide),
   append_empty_and_toggle_independent.2.2.2
     [⟨1, "u1", "Lunch?", "lunch?", true, true,
       [⟨"Pizza", []⟩, ⟨"Salad", []⟩], 0⟩,
      ⟨2, "u2", "Dinner?", "dinner?", true, true, [⟨"Steak", []⟩], 0⟩]
     1 0
     ⟨1, "u1", "Lunch?", "lunch?", true, true,
       [⟨"Pizza", []⟩, ⟨"Salad", []⟩], 0⟩
     (by decide) (by decide) (by decide)
     [(.str "u3", "Sam", ""), (.str "u4", "Ada", "")] 1 (by decide)⟩

/-- C3 (amended).  `Poll.toggle` fails with the NotFound status when the
poll id does not resolve, and with the InvalidOption status exactly when
`optionIndex ≥ option count` — the code checks only the upper bound, so
only non-negative out-of-bounds indices are rejected (negative ones index
from the end, see the counterexample).  For `0 ≤ optionIndex < count` the
voter is removed with the removed-from status if present, inserted at the
end of insertion order with the added-to status if absent, and repeating
the same call restores the original membership set of that option. -/
theorem toggle_spec (st : Store) (pid : Int) (opt : Int) (uid : PyVal)
    (f l : String) :
    (getById st pid = none →
       Poll.toggle st pid opt uid f l =
         .ok st none "Sorry, this poll has been deleted") ∧
    (∀ p, getById st pid = some p → (p.options.length : Int) ≤ opt →
       Poll.toggle st pid opt uid f l =
         .ok st none "Sorry, that\x27s an invalid option") ∧
    (∀ p, getById st pid = some p → 0 ≤ opt →
        opt < (p.options.length : Int) →
       (((peopleGet (p.options.getD opt.toNat ⟨"", []⟩).people
            (pyStr uid)).isSome = true →
          Poll.toggle st pid opt uid f l =
            .ok (putPoll st (setOption p opt.toNat
                  ⟨(p.options.getD opt.toNat ⟨"", []⟩).title,
                   peopleRemove (p.options.getD opt.toNat ⟨"", []⟩).people
                     (pyStr uid)⟩))
              (some (setOption p opt.toNat
                  ⟨(p.options.getD opt.toNat ⟨"", []⟩).title,
                   peopleRemove (p.options.getD opt.toNat ⟨"", []⟩).people
                     (pyStr uid)⟩))
              ("Your name was removed from " ++
                (p.options.getD opt.toNat ⟨"", []⟩).title ++ "!")) ∧
        (peopleGet (p.options.getD opt.toNat ⟨"", []⟩).people (pyStr uid) =
            none →
          Poll.toggle st pid opt uid f l =
            .ok (putPoll st (setOption p opt.toNat
                  ⟨(p.options.getD opt.toNat ⟨"", []⟩).title,
                   (p.options.getD opt.toNat ⟨"", []⟩).people ++
                     [(pyStr uid, f, l)]⟩))
              (some (setOption p opt.toNat
                  ⟨(p.options.getD opt.toNat ⟨"", []⟩).title,
                   (p.options.getD opt.toNat ⟨"", []⟩).people ++
                     [(pyStr uid, f, l)]⟩))
              ("Your name was added to " ++
                (p.options.getD opt.toNat ⟨"", []⟩).title ++ "!")) ∧
        (∀ st2 p2 s2, Poll.toggle st pid opt uid f l = .ok st2 (some p2) s2 →
           ∀ st3 p3 s3,
             Poll.toggle st2 pid opt uid f l = .ok st3 (some p3) s3 →
             ∀ v, (peopleGet (p3.options.getD opt.toNat ⟨"", []⟩).people
                     v).isSome =
                  (peopleGet (p.options.getD opt.toNat ⟨"", []⟩).people
                     v).isSome))) := by
  refine ⟨fun hnone => ?_, fun p hg hge => ?_, fun p hg h0 hlen => ?_⟩
  · simp only [Poll.toggle, hnone]
  · simp only [Poll.toggle, hg, hge, if_true, ite_true, reduceIte]
  · have key := toggle_in_bounds uid f l hg h0 hlen
    refine ⟨fun hin => ?_, fun hout => ?_, fun st2 p2 s2 h2 st3 p3 s3 h3 v => ?_⟩
    · obtain ⟨w, hw⟩ := Option.isSome_iff_exists.mp hin
      have ht : (p.options.getD opt.toNat ⟨"", []⟩).toggle uid f l =
          (⟨(p.options.getD opt.toNat ⟨"", []⟩).title,
            peopleRemove (p.options.getD opt.toNat ⟨"", []⟩).people
              (pyStr uid)⟩,
           "Your name was removed from " ++
             (p.options.getD opt.toNat ⟨"", []⟩).title ++ "!") := by
        simp only [PollOption.toggle, hw]
      rw [key, ht]
    · have ht : (p.options.getD opt.toNat ⟨"", []⟩).toggle uid f l =
          (⟨(p.options.getD opt.toNat ⟨"", []⟩).title,
            (p.options.getD opt.toNat ⟨"", []⟩).people ++
              [(pyStr uid, f, l)]⟩,
           "Your name was added to " ++
             (p.options.getD opt.toNat ⟨"", []⟩).title ++ "!") := by
        simp only [PollOption.toggle, hout]
      rw [key, ht]
    · -- run the two toggles and compare memberships
      rw [key] at h2
      obtain ⟨hst2, hp2, -⟩ : st2 = putPoll st (setOption p opt.toNat
            ((p.options.getD opt.toNat ⟨"", []⟩).toggle uid f l).1) ∧
          p2 = setOption p opt.toNat
            ((p.options.getD opt.toNat ⟨"", []⟩).toggle uid f l).1 ∧
          s2 = ((p.options.getD opt.toNat ⟨"", []⟩).toggle uid f l).2 := by
        injection h2 with h2a h2b h2c
        exact ⟨h2a.symm, (Option.some.inj h2b).symm, h2c.symm⟩
      subst hst2 hp2
      have hq : getById (putPoll st (setOption p opt.toNat
            ((p.options.getD opt.toNat ⟨"", []⟩).toggle uid f l).1)) pid =
          some (setOption p opt.toNat
            ((p.options.getD opt.toNat ⟨"", []⟩).toggle uid f l).1) :=
        getById_putPoll hg _ rfl
      have hlen2 : opt < (((setOption p opt.toNat
          ((p.options.getD opt.toNat ⟨"", []⟩).toggle uid f l).1)).options.length : Int) := by
        simp only [setOption, List.length_set]
        exact hlen
      have key2 := toggle_in_bounds uid f l hq h0 hlen2
      rw [key2] at h3
      obtain ⟨-, hp3, -⟩ :
          st3 = _ ∧ p3 = setOption (setOption p opt.toNat
              ((p.options.getD opt.toNat ⟨"", []⟩).toggle uid f l).1) opt.toNat
              (((setOption p opt.toNat
                  ((p.options.getD opt.toNat ⟨"", []⟩).toggle uid f l).1).options.getD
                    opt.toNat ⟨"", []⟩).toggle uid f l).1 ∧
            s3 = _ := by
        injection h3 with h3a h3b h3c
        exact ⟨h3a.symm, (Option.some.inj h3b).symm, h3c.symm⟩
      subst hp3
      have hidx : opt.toNat < p.options.length := by omega
      have hg1 : (setOption p opt.toNat
            ((p.options.getD opt.toNat ⟨"", []⟩).toggle uid f l).1).options.getD
          opt.toNat ⟨"", []⟩ =
          ((p.options.getD opt.toNat ⟨"", []⟩).toggle uid f l).1 := by
        simp only [setOption]
        exact getD_set_self _ _ hidx
      have hg2 : (setOption (setOption p opt.toNat
            ((p.options.getD opt.toNat ⟨"", []⟩).toggle uid f l).1) opt.toNat
            (((setOption p opt.toNat
                ((p.options.getD opt.toNat ⟨"", []⟩).toggle uid f l).1).options.getD
                  opt.toNat ⟨"", []⟩).toggle uid f l).1).options.getD
          opt.toNat ⟨"", []⟩ =
          (((setOption p opt.toNat
              ((p.options.getD opt.toNat ⟨"", []⟩).toggle uid f l).1).options.getD
                opt.toNat ⟨"", []⟩).toggle uid f l).1 := by
        simp only [setOption]
        refine getD_set_self _ _ ?_
        simp [List.length_set]
        omega
      rw [hg2, hg1, toggle_people_mem, toggle_people_mem]
      have hbne : ∀ (a b : Bool), ((a != b) != b) = a := by decide
      exact hbne _ _

/-- Witness for `toggle_spec`: the three failure/success shapes on
concrete stores — a deleted poll, an out-of-range index, and a first vote
landing on "Pizza". -/
theorem toggle_spec_witness :
    (let P : Poll := ⟨1, "u1", "Lunch?", "lunch?", true, true,
                      [⟨"Pizza", []⟩], 0⟩
     (Poll.toggle [] 1 0 (.str "u2") "Sam" "" =
        .ok [] none "Sorry, this poll has been deleted") ∧
     (Poll.toggle [P] 1 5 (.str "u2") "Sam" "" =
        .ok [P] none "Sorry, that\x27s an invalid option") ∧
     (Poll.toggle [P] 1 0 (.str "u2") "Sam" "" =
        .ok (putPoll [P] (setOption P (Int.toNat 0)
              ⟨"Pizza", [] ++ [(pyStr (.str "u2"), "Sam", "")]⟩))
          (some (setOption P (Int.toNat 0)
              ⟨"Pizza", [] ++ [(pyStr (.str "u2"), "Sam", "")]⟩))
          ("Your name was added to " ++ "Pizza" ++ "!"))) :=
  ⟨(toggle_spec [] 1 0 (.str "u2") "Sam" "").1 (by decide),
   (toggle_spec [⟨1, "u1", "Lunch?", "lunch?", true, true, [⟨"Pizza", []⟩], 0⟩]
      1 5 (.str "u2") "Sam" "").2.1
      ⟨1, "u1", "Lunch?", "lunch?", true, true, [⟨"Pizza", []⟩], 0⟩
      (by decide) (by decide),
   ((toggle_spec [⟨1, "u1", "Lunch?", "lunch?", true, true, [⟨"Pizza", []⟩], 0⟩]
      1 0 (.str "u2") "Sam" "").2.2
      ⟨1, "u1", "Lunch?", "lunch?", true, true, [⟨"Pizza", []⟩], 0⟩
      (by decide) (by decide) (by decide)).2.1 (by decide)⟩

/-- `Char.ofNat` at a valid codepoint round-trips through `toNat`. -/
theorem toNat_ofNat_valid {n : Nat} (h : n.isValidChar) :
    (Char.ofNat n).toNat = n := by
  rw [Char.ofNat, dif_pos h]
  rfl

/-- The modelled Python lowercase map is idempotent character-wise. -/
theorem pyLowerChar_idem (c : Char) :
    pyLowerChar (pyLowerChar c) = pyLowerChar c := by
  unfold pyLowerChar
  by_cases h : 65 ≤ c.toNat ∧ c.toNat ≤ 90
  · rw [if_pos h]
    have ht : (Char.ofNat (c.toNat + 32)).toNat = c.toNat + 32 :=
      toNat_ofNat_valid (Or.inl (by omega))
    rw [if_neg (by rw [ht]; omega)]
  · rw [if_neg h, if_neg h]

/-- `pyLower` is idempotent: a lowered string is entirely lowercase. -/
theorem pyLower_idem (s : String) : pyLower (pyLower s) = pyLower s := by
  simp only [pyLower]
  congr 1
  rw [List.map_map]
  exact List.map_congr_left fun a _ => pyLowerChar_idem a

/-- `pyLower` preserves length (Python 2's simple case mapping is 1-1). -/
theorem pyLower_length (s : String) : (pyLower s).length = s.length := by
  show (List.map pyLowerChar s.data).length = s.data.length
  exact List.length_map _ _

/-- A `take` of a character list is a prefix of it. -/
theorem take_isPrefixOf (l : List Char) (n : Nat) :
    (l.take n).isPrefixOf l = true := by
  induction l generalizing n with
  | nil => cases n <;> rfl
  | cons a l ih =>
    cases n with
    | zero => rfl
    | succ n =>
      rw [List.take_succ_cons, List.isPrefixOf_cons₂]
      simp [ih]

/-- C5 (amended).  For every poll produced by `New`, the title-prefix-key
is the lowercasing of a prefix of the title — namely its first 512
characters — rather than a prefix of the title itself (see the
counterexample); it is entirely lowercase (fixed by lowercasing) and at
most 512 characters long; and the subsequent operations preserve it:
`Poll.toggle` returns a poll with the fetched poll's `title` and
`title_short`, and the append-option step changes only `options`. -/
theorem title_short_spec (id created : Nat) (admin title : String) :
    ((uslice title 0 512).data.isPrefixOf title.data = true ∧
     (Poll.new id created admin title).title_short =
       pyLower (uslice title 0 512)) ∧
    pyLower (Poll.new id created admin title).title_short =
      (Poll.new id created admin title).title_short ∧
    (Poll.new id created admin title).title_short.length ≤ 512 ∧
    (∀ st pid opt uid f l st2 q2 s2,
       Poll.toggle st pid opt uid f l = .ok st2 (some q2) s2 →
       ∀ p0, getById st pid = some p0 →
         q2.title = p0.title ∧ q2.title_short = p0.title_short) ∧
    (∀ p t, (appendOption p t).title = p.title ∧
            (appendOption p t).title_short = p.title_short) := by
  refine ⟨⟨?_, rfl⟩, pyLower_idem _, ?_, ?_, fun p t => ⟨rfl, rfl⟩⟩
  · rw [show (uslice title 0 512).data = title.data.take 512 by
        simp [uslice]]
    exact take_isPrefixOf title.data 512
  · show (pyLower (uslice title 0 512)).length ≤ 512
    rw [pyLower_length]
    simp only [uslice, String.length, List.drop_zero]
    simp [List.length_take]
  · intro st pid opt uid f l st2 q2 s2 htog p0 hg0
    simp only [Poll.toggle, hg0] at htog
    by_cases e1 : (p0.options.length : Int) ≤ opt
    · rw [if_pos e1] at htog
      simp only [ToggleResult.ok.injEq] at htog
      exact absurd htog.2.1 (by simp)
    · rw [if_neg e1] at htog
      by_cases e2 : (if opt < 0 then (p0.options.length : Int) + opt
          else opt) < 0
      · rw [if_pos e2] at htog
        exact ToggleResult.noConfusion htog
      · rw [if_neg e2] at htog
        simp only [ToggleResult.ok.injEq] at htog
        obtain ⟨-, hq, -⟩ := htog
        obtain rfl := (Option.some.inj hq)
        exact ⟨rfl, rfl⟩

/-- Witness for `title_short_spec`: the title "PIZZA" (key "pizza"), plus
the preservation clause run on a concrete toggle. -/
theorem title_short_spec_witness :
    (((uslice "PIZZA" 0 512).data.isPrefixOf ("PIZZA" : String).data = true ∧
      (Poll.new 1 0 "u1" "PIZZA").title_short =
        pyLower (uslice "PIZZA" 0 512)) ∧
     pyLower (Poll.new 1 0 "u1" "PIZZA").title_short =
       (Poll.new 1 0 "u1" "PIZZA").title_short ∧
     (Poll.new 1 0 "u1" "PIZZA").title_short.length ≤ 512) ∧
    ((setOption ⟨1, "u1", "Lunch?", "lunch?", true, true, [⟨"Pizza", []⟩], 0⟩
        (Int.toNat 0)
        ⟨"Pizza", [] ++ [(pyStr (.str "u2"), "Sam", "")]⟩).title =
      (⟨1, "u1", "Lunch?", "lunch?", true, true, [⟨"Pizza", []⟩], 0⟩ :
        Poll).title ∧
     (setOption ⟨1, "u1", "Lunch?", "lunch?", true, true, [⟨"Pizza", []⟩], 0⟩
        (Int.toNat 0)
        ⟨"Pizza", [] ++ [(pyStr (.str "u2"), "Sam", "")]⟩).title_short =
      (⟨1, "u1", "Lunch?", "lunch?", true, true, [⟨"Pizza", []⟩], 0⟩ :
        Poll).title_short) :=
  ⟨⟨(title_short_spec 1 0 "u1" "PIZZA").1,
    (title_short_spec 1 0 "u1" "PIZZA").2.1,
    (title_short_spec 1 0 "u1" "PIZZA").2.2.1⟩,
   (title_short_spec 1 0 "u1" "PIZZA").2.2.2.1
     [⟨1, "u1", "Lunch?", "lunch?", true, true, [⟨"Pizza", []⟩], 0⟩]
     1 0 (.str "u2") "Sam" ""
     (putPoll [⟨1, "u1", "Lunch?", "lunch?", true, true, [⟨"Pizza", []⟩], 0⟩]
       (setOption ⟨1, "u1", "Lunch?", "lunch?", true, true,
          [⟨"Pizza", []⟩], 0⟩ (Int.toNat 0)
         ⟨"Pizza", [] ++ [(pyStr (.str "u2"), "Sam", "")]⟩))
     (setOption ⟨1, "u1", "Lunch?", "lunch?", true, true,
        [⟨"Pizza", []⟩], 0⟩ (Int.toNat 0)
       ⟨"Pizza", [] ++ [(pyStr (.str "u2"), "Sam", "")]⟩)
     ("Your name was added to " ++ "Pizza" ++ "!")
     (by decide)
     ⟨1, "u1", "Lunch?", "lunch?", true, true, [⟨"Pizza", []⟩], 0⟩
     (by decide)⟩

/-- The step case of the parity argument: one more call by `c` flips the
odd-count bit for `v` exactly when `c`'s stringified id is `v`. -/
theorem countCallsBy_parity_step (c : ToggleCall) (calls : List ToggleCall)
    (v : String) :
    ((pyStr c.1 == v) != decide (countCallsBy calls v % 2 = 1)) =
      decide (countCallsBy (c :: calls) v % 2 = 1) := by
  by_cases hc : pyStr c.1 = v
  · have hbeq : (pyStr c.1 == v) = true := by simp [hc]
    have hcnt : countCallsBy (c :: calls) v = countCallsBy calls v + 1 := by
      simp [countCallsBy, List.countP_cons, hbeq]
    rw [hbeq, hcnt]
    by_cases ho : countCallsBy calls v % 2 = 1
    · have h1 : ¬ ((countCallsBy calls v + 1) % 2 = 1) := by omega
      simp [ho, h1]
    · have h1 : (countCallsBy calls v + 1) % 2 = 1 := by omega
      simp [ho, h1]
  · have hbeq : (pyStr c.1 == v) = false := by simp [hc]
    have hcnt : countCallsBy (c :: calls) v = countCallsBy calls v := by
      simp [countCallsBy, List.countP_cons, hbeq]
    rw [hbeq, hcnt]
    simp

/-- C8.  `Poll.toggle` is declared `@ndb.transactional`, so each call is an
atomic read-modify-write of one poll retried on conflict; any concurrent
execution is therefore equivalent to some serial order of the calls, which
`runToggles` runs.  For every serialization of calls against one valid
poll/option, every voter id `v` ends up a member iff its initial
membership xor the parity of the calls made under `v` says so — in
particular a voter absent initially is in exactly when their number of
toggles is odd, independently of how the other voters' calls interleave:
no update is lost. -/
theorem concurrent_toggles_parity (st : Store) (pid : Int) (opt : Int)
    (p : Poll) (hg : getById st pid = some p) (h0 : 0 ≤ opt)
    (hlen : opt < (p.options.length : Int)) (calls : List ToggleCall)
    (v : String) :
    ∃ p2, getById (runToggles pid opt st calls) pid = some p2 ∧
      p2.options.length = p.options.length ∧
      (peopleGet (p2.options.getD opt.toNat ⟨"", []⟩).people v).isSome =
        ((peopleGet (p.options.getD opt.toNat ⟨"", []⟩).people v).isSome !=
          decide (countCallsBy calls v % 2 = 1)) ∧
      (peopleGet (p.options.getD opt.toNat ⟨"", []⟩).people v = none →
        ((peopleGet (p2.options.getD opt.toNat ⟨"", []⟩).people v).isSome =
            true ↔
          countCallsBy calls v % 2 = 1)) := by
  have main : ∀ (calls : List ToggleCall) (st : Store) (p : Poll),
      getById st pid = some p → opt < (p.options.length : Int) →
      ∃ p2, getById (runToggles pid opt st calls) pid = some p2 ∧
        p2.options.length = p.options.length ∧
        (peopleGet (p2.options.getD opt.toNat ⟨"", []⟩).people v).isSome =
          ((peopleGet (p.options.getD opt.toNat ⟨"", []⟩).people v).isSome !=
            decide (countCallsBy calls v % 2 = 1)) := by
    intro calls
    induction calls with
    | nil =>
      intro st p hg hlen
      refine ⟨p, hg, rfl, ?_⟩
      have h0c : countCallsBy [] v = 0 := rfl
      simp [h0c]
    | cons c calls ih =>
      intro st p hg hlen
      have key := toggle_in_bounds c.1 c.2.1 c.2.2
        hg h0 hlen
      have hidx : opt.toNat < p.options.length := by omega
      have hst' : runToggles pid opt st (c :: calls) =
          runToggles pid opt (putPoll st (setOption p opt.toNat
            ((p.options.getD opt.toNat ⟨"", []⟩).toggle c.1 c.2.1
              c.2.2).1)) calls := by
        simp only [runToggles, List.foldl_cons, key]
      have hgq := getById_putPoll hg (setOption p opt.toNat
        ((p.options.getD opt.toNat ⟨"", []⟩).toggle c.1 c.2.1 c.2.2).1) rfl
      have hlenq : opt < (((setOption p opt.toNat
          ((p.options.getD opt.toNat ⟨"", []⟩).toggle c.1 c.2.1
            c.2.2).1)).options.length : Int) := by
        simp only [setOption, List.length_set]
        exact hlen
      obtain ⟨p2, hgp2, hlen2, hpar⟩ := ih _ _ hgq hlenq
      refine ⟨p2, ?_, ?_, ?_⟩
      · rw [hst']; exact hgp2
      · rw [hlen2]; simp [setOption, List.length_set]
      · rw [hpar]
        rw [show (setOption p opt.toNat
              ((p.options.getD opt.toNat ⟨"", []⟩).toggle c.1 c.2.1
                c.2.2).1).options.getD opt.toNat ⟨"", []⟩ =
            ((p.options.getD opt.toNat ⟨"", []⟩).toggle c.1 c.2.1 c.2.2).1
          from getD_set_self _ _ (by simpa [setOption] using hidx)]
        rw [toggle_people_mem]
        have hassoc : ∀ a b d : Bool, ((a != b) != d) = (a != (b != d)) := by
          decide
        rw [hassoc, countCallsBy_parity_step]
  obtain ⟨p2, h1, h2, h3⟩ := main calls st p hg hlen
  refine ⟨p2, h1, h2, h3, fun habs => ?_⟩
  rw [h3, habs]
  simp

/-- Witness for `concurrent_toggles_parity`: three serialized calls — two
by voter 1, one by voter 2 — on a fresh "Pizza" option; tested for
voter "2" (odd count, absent initially). -/
theorem concurrent_toggles_parity_witness :
    ∃ p2, getById (runToggles 1 0
        [⟨1, "u1", "Lunch?", "lunch?", true, true, [⟨"Pizza", []⟩], 0⟩]
        [(.int 1, "A", ""), (.int 2, "B", ""), (.int 1, "C", "")]) 1 =
        some p2 ∧
      p2.options.length =
        (⟨1, "u1", "Lunch?", "lunch?", true, true, [⟨"Pizza", []⟩], 0⟩ :
          Poll).options.length ∧
      (peopleGet (p2.options.getD (Int.toNat 0) ⟨"", []⟩).people "2").isSome =
        ((peopleGet ((⟨1, "u1", "Lunch?", "lunch?", true, true,
            [⟨"Pizza", []⟩], 0⟩ : Poll).options.getD (Int.toNat 0)
            ⟨"", []⟩).people "2").isSome !=
          decide (countCallsBy
            [(.int 1, "A", ""), (.int 2, "B", ""), (.int 1, "C", "")] "2" %
              2 = 1)) ∧
      (peopleGet ((⟨1, "u1", "Lunch?", "lunch?", true, true,
          [⟨"Pizza", []⟩], 0⟩ : Poll).options.getD (Int.toNat 0)
          ⟨"", []⟩).people "2" = none →
        ((peopleGet (p2.options.getD (Int.toNat 0) ⟨"", []⟩).people
            "2").isSome = true ↔
          countCallsBy
            [(.int 1, "A", ""), (.int 2, "B", ""), (.int 1, "C", "")] "2" %
              2 = 1)) :=
  concurrent_toggles_parity
    [⟨1, "u1", "Lunch?", "lunch?", true, true, [⟨"Pizza", []⟩], 0⟩] 1 0
    ⟨1, "u1", "Lunch?", "lunch?", true, true, [⟨"Pizza", []⟩], 0⟩
    (by decide) (by decide) (by decide)
    [(.int 1, "A", ""), (.int 2, "B", ""), (.int 1, "C", "")] "2"

/-- A string in the half-open lexicographic range `[q, q ++ t)` starts
with `q`: if `s` is not below `q` yet below `q ++ t`, then `q` is a prefix
of `s`. -/
theorem lex_between {q s t : List Char} (h1 : ¬ s < q) (h2 : s < q ++ t) :
    q.isPrefixOf s = true := by
  induction q generalizing s with
  | nil => exact List.isPrefixOf_nil_left
  | cons a q ih =>
    cases s with
    | nil => exact absurd List.Lex.nil h1
    | cons b s =>
      rw [List.cons_append] at h2
      cases h2 with
      | cons h =>
        rw [List.isPrefixOf_cons₂]
        have h1' : ¬ s < q := fun hs => h1 (List.Lex.cons hs)
        simp [ih h1' h]
      | rel h => exact absurd (List.Lex.rel h) h1

/-- C4 (amended).  With at most 50 matches, inline search returns poll `P`
iff `P` is stored, its admin is the requester, and its title-prefix-key
lies in the half-open code-point range `[lowercase(Q), lowercase(Q) +
U+FFFD)` — every returned key starts with `lowercase(Q)`, but a key whose
character right after the prefix is U+FFFD or above is missed (see the
counterexample); results are ordered by creation time descending. -/
theorem inline_search_spec (st : Store) (uid qtext : String)
    (hfew : (st.filter (fun p => p.admin_uid == uid
        && !(pyStrLt p.title_short (pyLower qtext))
        && pyStrLt p.title_short (pyLower qtext ++ sentinelStr))).length ≤
      50) :
    (∀ p, p ∈ handle_inline_query st uid qtext ↔
        (p ∈ st ∧ p.admin_uid = uid ∧
         pyStrLt p.title_short (pyLower qtext) = false ∧
         pyStrLt p.title_short (pyLower qtext ++ sentinelStr) = true)) ∧
    (handle_inline_query st uid qtext).Pairwise
      (fun a b => b.created ≤ a.created) ∧
    (∀ p, p ∈ handle_inline_query st uid qtext →
        (pyLower qtext).data.isPrefixOf p.title_short.data = true) := by
  have hmem : ∀ p, p ∈ handle_inline_query st uid qtext ↔
      (p ∈ st ∧ p.admin_uid = uid ∧
       pyStrLt p.title_short (pyLower qtext) = false ∧
       pyStrLt p.title_short (pyLower qtext ++ sentinelStr) = true) := by
    intro p
    simp only [handle_inline_query, List.mem_mergeSort]
    rw [List.take_of_length_le hfew]
    simp [List.mem_filter, Bool.and_eq_true, beq_iff_eq, Bool.not_eq_true',
      and_assoc]
  refine ⟨hmem, ?_, ?_⟩
  · simp only [handle_inline_query]
    refine List.Pairwise.imp ?_ (List.sorted_mergeSort ?_ ?_ _)
    · exact fun h => of_decide_eq_true h
    · intro a b c hab hbc
      exact decide_eq_true
        (Nat.le_trans (of_decide_eq_true hbc) (of_decide_eq_true hab))
    · intro a b
      rcases Nat.le_total b.created a.created with h | h
      · simp [h]
      · simp [h]
  · intro p hp
    obtain ⟨-, -, hlt1, hlt2⟩ := (hmem p).mp hp
    have h1 : ¬ (p.title_short.data < (pyLower qtext).data) := by
      simpa [pyStrLt] using hlt1
    have h2 : p.title_short.data < (pyLower qtext).data ++ sentinelStr.data := by
      have := of_decide_eq_true hlt2
      simpa [String.data_append] using this
    exact lex_between h1 h2

/-- Witness for `inline_search_spec`: admin "7" searching "ap" over two
matching polls (at most 50 matches). -/
theorem inline_search_spec_witness :
    ((∀ p, p ∈ handle_inline_query
          [Poll.new 1 1 "7" "Apple pie", Poll.new 2 2 "7" "apricot"] "7"
          "ap" ↔
        (p ∈ [Poll.new 1 1 "7" "Apple pie", Poll.new 2 2 "7" "apricot"] ∧
         p.admin_uid = "7" ∧
         pyStrLt p.title_short (pyLower "ap") = false ∧
         pyStrLt p.title_short (pyLower "ap" ++ sentinelStr) = true)) ∧
     (handle_inline_query
         [Poll.new 1 1 "7" "Apple pie", Poll.new 2 2 "7" "apricot"] "7"
         "ap").Pairwise (fun a b => b.created ≤ a.created) ∧
     (∀ p, p ∈ handle_inline_query
          [Poll.new 1 1 "7" "Apple pie", Poll.new 2 2 "7" "apricot"] "7"
          "ap" →
        (pyLower "ap").data.isPrefixOf p.title_short.data = true)) :=
  inline_search_spec
    [Poll.new 1 1 "7" "Apple pie", Poll.new 2 2 "7" "apricot"] "7" "ap"
    (by decide)

/-- Witness for `delete_needs_no_ownership`: requester `7` deletes poll 1
owned by admin "42". -/
theorem delete_needs_no_ownership_witness :
    handle_callback_query [Poll.new 1 0 "42" "Lunch?"] "1 delete" 7 "Sam" ""
        false false =
      ⟨deletePoll [Poll.new 1 0 "42" "Lunch?"] 1,
       [.editMarkup false false], .answered "Poll deleted!"⟩ :=
  (delete_needs_no_ownership [Poll.new 1 0 "42" "Lunch?"] "1 delete" 1
    (Poll.new 1 0 "42" "Lunch?") (by decide) (by decide)).1 7 "Sam" ""

end CountMeIn
